import Mathlib

set_option maxHeartbeats 1000000
set_option maxRecDepth 8192

namespace Issuerizer

/-!
Shallow embedding of the issuerizer repository (src/issuerizer/github.py,
src/issuerizer/llm.py, src/issuerizer/main.py).

The HTTP transport is an external collaborator; following the spec's
interface contract (`GET(url, headers) -> {status, body, nextPageURL?}`),
a transport is modelled by the sequence of responses it returns for the
successive requests a function issues.  httpx `raise_for_status` raises
for every non-2xx status, which `isSuccess` reflects.
-/

/-- Model of one page response seen by `_get_all_pages`: HTTP status, the
decoded JSON body (`none` when the body is not a JSON list), and whether
the `Link` header supplies a `rel="next"` URL. -/
structure Page (α : Type) where
  status : Nat
  body : Option (List α)
  hasNext : Bool
deriving Repr, DecidableEq

/-- httpx `Response.raise_for_status` does not raise exactly for 2xx. -/
def isSuccess (s : Nat) : Bool := 200 ≤ s && s < 300

/-- Model of `GitHubClient._get_all_pages` (github.py lines 69-91): walk the
pages, `raise_for_status` on each (modelled as `Except.error status`),
extend the accumulator when the body is a list, `break` (returning what was
accumulated) when it is not, and continue while a next link is supplied.
The loop contains no `print`, so the warning stream it contributes (second
component) is always empty; it is made explicit because warnings elsewhere
in `get_issue` are tracked. -/
def getAllPages {α : Type} : List (Page α) → List α → (Except Nat (List α)) × List String
  | [], acc => (.ok acc, [])
  | p :: rest, acc =>
    if isSuccess p.status then
      match p.body with
      | none => (.ok acc, [])
      | some items =>
        if p.hasNext then getAllPages rest (acc ++ items)
        else (.ok (acc ++ items), [])
    else (.error p.status, [])

/-- The concatenation, in response order, of the list bodies of a page
sequence. -/
def concatBodies {α : Type} : List (Page α) → List α
  | [] => []
  | p :: rest => p.body.getD [] ++ concatBodies rest

/-- A page that succeeds, carries a list body, and advertises a next page. -/
def pageGoodNext {α : Type} (p : Page α) : Bool :=
  isSuccess p.status && p.body.isSome && p.hasNext

/-- A well-formed page chain: every page succeeds with a list body, every
page but the last advertises a next page, and the last does not. -/
def chainOk {α : Type} : List (Page α) → Bool
  | [] => false
  | [p] => isSuccess p.status && p.body.isSome && !p.hasNext
  | p :: rest => pageGoodNext p && chainOk rest

theorem getAllPages_step {α : Type} (p : Page α) (rest : List (Page α))
    (acc items : List α) (hs : isSuccess p.status = true)
    (hi : p.body = some items) (hn : p.hasNext = true) :
    getAllPages (p :: rest) acc = getAllPages rest (acc ++ items) := by
  simp only [getAllPages, hs, if_true, hi, hn]

theorem getAllPages_chainOk {α : Type} (pages : List (Page α)) :
    chainOk pages = true →
    ∀ acc, (getAllPages pages acc).1 = .ok (acc ++ concatBodies pages) := by
  induction pages with
  | nil => intro h; exact absurd h (by simp [chainOk])
  | cons p rest ih =>
    intro h acc
    cases rest with
    | nil =>
      simp only [chainOk, Bool.and_eq_true] at h
      obtain ⟨⟨hs, hb⟩, hn⟩ := h
      obtain ⟨items, hi⟩ := Option.isSome_iff_exists.mp hb
      have hnf : p.hasNext = false := by simpa using hn
      simp [getAllPages, hs, hi, hnf, concatBodies]
    | cons q rest' =>
      simp only [chainOk, Bool.and_eq_true, pageGoodNext] at h
      obtain ⟨⟨⟨hs, hb⟩, hn⟩, hrest⟩ := h
      obtain ⟨items, hi⟩ := Option.isSome_iff_exists.mp hb
      rw [getAllPages_step p (q :: rest') acc items hs hi hn, ih hrest (acc ++ items)]
      simp [concatBodies, hi, List.append_assoc]

theorem getAllPages_failAt {α : Type} (pref : List (Page α)) :
    (∀ q ∈ pref, pageGoodNext q = true) →
    ∀ (p : Page α) (rest : List (Page α)) acc, isSuccess p.status = false →
    (getAllPages (pref ++ p :: rest) acc).1 = .error p.status := by
  induction pref with
  | nil =>
    intro _ p rest acc hp
    simp [getAllPages, hp]
  | cons q pref' ih =>
    intro h p rest acc hp
    have hq := h q (by simp)
    simp only [pageGoodNext, Bool.and_eq_true] at hq
    obtain ⟨⟨hs, hb⟩, hn⟩ := hq
    obtain ⟨items, hi⟩ := Option.isSome_iff_exists.mp hb
    rw [List.cons_append, getAllPages_step q (pref' ++ p :: rest) acc items hs hi hn]
    exact ih (fun r hr => h r (by simp [hr])) p rest (acc ++ items) hp

theorem getAllPages_stopNonList {α : Type} (pref : List (Page α)) :
    (∀ q ∈ pref, pageGoodNext q = true) →
    ∀ (p : Page α) (rest : List (Page α)) acc, isSuccess p.status = true →
    p.body = none →
    getAllPages (pref ++ p :: rest) acc = (.ok (acc ++ concatBodies pref), []) := by
  induction pref with
  | nil =>
    intro _ p rest acc hp hb
    simp [getAllPages, hp, hb, concatBodies]
  | cons q pref' ih =>
    intro h p rest acc hp hb
    have hq := h q (by simp)
    simp only [pageGoodNext, Bool.and_eq_true] at hq
    obtain ⟨⟨hs, hqb⟩, hn⟩ := hq
    obtain ⟨items, hi⟩ := Option.isSome_iff_exists.mp hqb
    rw [List.cons_append, getAllPages_step q (pref' ++ p :: rest) acc items hs hi hn]
    rw [ih (fun r hr => h r (by simp [hr])) p rest (acc ++ items) hp hb]
    simp [concatBodies, hi, List.append_assoc]

/-- Claim C3: for every sequence of pages returned by the transport, the
paginated fetch returns exactly the concatenation of the pages' records in
response order, continuing until a page supplies no next URL, and it
raises an error if any page request (including the first) returns a
failure status. -/
theorem c3_pagination_transparent {α : Type} :
    (∀ pages : List (Page α), chainOk pages = true →
      (getAllPages pages []).1 = .ok (concatBodies pages)) ∧
    (∀ (pref : List (Page α)) (p : Page α) (rest : List (Page α)),
      (∀ q ∈ pref, pageGoodNext q = true) → isSuccess p.status = false →
      (getAllPages (pref ++ p :: rest) []).1 = .error p.status) := by
  constructor
  · intro pages h
    have := getAllPages_chainOk pages h []
    simpa using this
  · intro pref p rest h hp
    exact getAllPages_failAt pref h p rest [] hp

def pagesWitness : List (Page Nat) :=
  [⟨200, some (List.range 30), true⟩,
   ⟨200, some ((List.range 30).map (fun i => 30 + i)), true⟩,
   ⟨200, some ((List.range 5).map (fun i => 60 + i)), false⟩]

theorem c3_pagination_transparent_witness :
    (getAllPages pagesWitness []).1 = .ok (concatBodies pagesWitness) ∧
    concatBodies pagesWitness = List.range 65 := by
  refine ⟨(c3_pagination_transparent (α := Nat)).1 pagesWitness (by decide), by decide⟩

/-- Claim C10: a success-status page whose JSON body is not a list makes the
paginated fetch silently stop: it returns exactly the records accumulated
from earlier pages (the empty list on the first page), with no error and
no warning. -/
theorem c10_nonlist_body_stops {α : Type}
    (pref : List (Page α)) (p : Page α) (rest : List (Page α))
    (h : ∀ q ∈ pref, pageGoodNext q = true)
    (hp : isSuccess p.status = true) (hb : p.body = none) :
    getAllPages (pref ++ p :: rest) [] = (.ok (concatBodies pref), []) := by
  simpa using getAllPages_stopNonList pref h p rest [] hp hb

theorem c10_nonlist_body_stops_witness :
    getAllPages ([⟨200, some [7, 8], true⟩, ⟨200, none, true⟩,
        ⟨200, some [9], false⟩] : List (Page Nat)) [] = (.ok [7, 8], []) := by
  have := c10_nonlist_body_stops (α := Nat) [⟨200, some [7, 8], true⟩]
    ⟨200, none, true⟩ [⟨200, some [9], false⟩] (by decide) (by decide) (by decide)
  simpa using this

/-! ## Data model (github.py lines 9-57, pydantic models) -/

/-- `User` (github.py lines 9-11). -/
structure User where
  login : String
  html_url : String
deriving Repr, DecidableEq

/-- `Comment` (github.py lines 13-18). -/
structure Comment where
  id : Int
  user : User
  body : String
  html_url : String
  created_at : String
deriving Repr, DecidableEq

/-- `SimpleIssue` (github.py lines 20-28).  `pull_request: Optional[dict]`
carries no structure the code reads; it is modelled as an optional unit. -/
structure SimpleIssue where
  number : Int
  title : String
  html_url : String
  state : String
  body : Option String := none
  user : Option User := none
  repository_url : Option String := none
  pull_request : Option Unit := none
deriving Repr, DecidableEq

/-- `EventSource` (github.py lines 30-32). -/
structure EventSource where
  type : Option String := none
  issue : Option SimpleIssue := none
deriving Repr, DecidableEq

/-- `Event` (github.py lines 34-40). -/
structure Event where
  id : Int
  event : String
  actor : Option User := none
  created_at : String
  commit_id : Option String := none
  source : Option EventSource := none
deriving Repr, DecidableEq

/-- `Issue` (github.py lines 42-57), the aggregate assembled by `get_issue`. -/
structure Issue where
  id : Int
  number : Int
  title : String
  user : User
  html_url : String
  state : String
  created_at : String
  updated_at : Option String := none
  body : Option String := none
  comments_url : String
  events_url : String
  comments_list : List Comment := []
  events_list : List Event := []
  sub_issues_list : List SimpleIssue := []
  parent : Option SimpleIssue := none
deriving Repr, DecidableEq

/-- The `sub_issues_summary` object of the primary issue JSON; `get_issue`
reads its `total` field. -/
structure SubIssuesSummary where
  total : Int
deriving Repr, DecidableEq

/-- The decoded JSON record of the primary issue as `get_issue` consumes it:
the fields `Issue(**issue_data)` validates plus the keys `get_issue` reads
directly (`sub_issues_summary`, `parent`, `parent_issue_url`).  An inline
`parent` key is modelled as present with a valid object (`some`) or absent
(`none`). -/
structure IssueData where
  id : Int
  number : Int
  title : String
  user : User
  html_url : String
  state : String
  created_at : String
  updated_at : Option String := none
  body : Option String := none
  comments_url : String
  events_url : String
  sub_issues_summary : Option SubIssuesSummary := none
  parent : Option SimpleIssue := none
  parent_issue_url : Option String := none
deriving Repr, DecidableEq

/-! ## Error and transport-outcome model -/

/-- The Python exceptions `get_issue` can let escape: `httpx.HTTPStatusError`
from `raise_for_status` (status and URL retained), a transport-level error
raised by `client.get` itself, a JSON decode error from `.json()`, and a
pydantic validation error from `Comment(**c)` / `Event(**e)`. -/
inductive PyErr where
  | httpStatus : Nat → String → PyErr
  | network : String → PyErr
  | decode : String → PyErr
  | validation : String → PyErr
deriving Repr, DecidableEq

/-- Outcome of one single (non-paginated) GET: either `client.get` raised,
or a response arrived with a status and a body of shape `β`. -/
inductive GetOutcome (β : Type) where
  | exn : String → GetOutcome β
  | resp : Nat → β → GetOutcome β
deriving Repr, DecidableEq

/-- Body of the sub-issues response as the code consumes it:
`.json()` raises (`badJson`), `[SimpleIssue(**s) for s in sub_data]` raises
(`notParseable`), or it yields a list of records. -/
inductive SubBody where
  | badJson : SubBody
  | notParseable : SubBody
  | items : List SimpleIssue → SubBody
deriving Repr, DecidableEq

/-- Body of the parent follow-up response: `.json()` raises,
`SimpleIssue(**json)` raises, or it yields a record. -/
inductive ParentBody where
  | badJson : ParentBody
  | notValid : ParentBody
  | issue : SimpleIssue → ParentBody
deriving Repr, DecidableEq

/-- The optional sub-requests `get_issue` issues, tagged by code site. -/
inductive Req where
  | subReq : String → Req
  | parentReq : String → Req
deriving Repr, DecidableEq

/-- What the transport returns for each request `get_issue` may make:
the primary GET (status, then decoded record or `none` when `.json()`
raises), the comment and event page sequences, and the responses to the
sub-issues and parent follow-up GETs (consulted only if those requests are
made). A raw paged record is `none` when `Comment(**c)` / `Event(**e)`
would reject it. -/
structure FetchEnv where
  primaryStatus : Nat
  primaryBody : Option IssueData
  commentsPages : List (Page (Option Comment))
  eventsPages : List (Page (Option Event))
  subResp : GetOutcome SubBody
  parentResp : GetOutcome ParentBody
deriving Repr, DecidableEq

/-- `Comment(**c)` / `Event(**e)` applied to every raw record in order;
the first malformed record raises a validation error. -/
def parseAll {β : Type} (tag : String) : List (Option β) → Except PyErr (List β)
  | [] => .ok []
  | some b :: rest => (parseAll tag rest).map (b :: ·)
  | none :: _ => .error (.validation tag)

def issueUrl (owner repo : String) (num : Int) : String :=
  "https://api.github.com/repos/" ++ owner ++ "/" ++ repo ++ "/issues/" ++ toString num

def subIssuesUrl (owner repo : String) (num : Int) : String :=
  issueUrl owner repo num ++ "/sub_issues"

/-- Sub-issues block of `get_issue` (github.py lines 117-127): triggered only
when the primary record carries a `sub_issues_summary` with `total > 0`;
the GET and all decoding sit in a `try` whose `except Exception` prints a
warning; a non-200 status silently leaves the list empty.  Returns the
resolved list, the warnings printed, and the requests issued. -/
def resolveSubIssues (owner repo : String) (num : Int) (d : IssueData)
    (out : GetOutcome SubBody) : List SimpleIssue × List String × List Req :=
  match d.sub_issues_summary with
  | none => ([], [], [])
  | some s =>
    if 0 < s.total then
      let url := subIssuesUrl owner repo num
      match out with
      | .exn m => ([], ["Warning: Failed to fetch sub-issues: " ++ m], [.subReq url])
      | .resp status b =>
        if status = 200 then
          match b with
          | .items l => (l, [], [.subReq url])
          | .badJson =>
            ([], ["Warning: Failed to fetch sub-issues: invalid json"], [.subReq url])
          | .notParseable =>
            ([], ["Warning: Failed to fetch sub-issues: validation error"], [.subReq url])
        else ([], [], [.subReq url])
    else ([], [], [])

/-- Parent block of `get_issue` (github.py lines 129-142): an inline
`parent` object wins without any request; otherwise a truthy
`parent_issue_url` triggers exactly one follow-up GET inside a `try` whose
`except Exception` prints a warning; a non-200 status silently yields no
parent. -/
def resolveParent (d : IssueData) (out : GetOutcome ParentBody) :
    Option SimpleIssue × List String × List Req :=
  match d.parent with
  | some p => (some p, [], [])
  | none =>
    match d.parent_issue_url with
    | none => (none, [], [])
    | some u =>
      if u = "" then (none, [], [])
      else
        match out with
        | .exn m => (none, ["Warning: Failed to fetch parent issue: " ++ m], [.parentReq u])
        | .resp status b =>
          if status = 200 then
            match b with
            | .issue si => (some si, [], [.parentReq u])
            | .badJson =>
              (none, ["Warning: Failed to fetch parent issue: invalid json"], [.parentReq u])
            | .notValid =>
              (none, ["Warning: Failed to fetch parent issue: validation error"], [.parentReq u])
          else (none, [], [.parentReq u])

instance {ε α : Type} [DecidableEq ε] [DecidableEq α] :
    DecidableEq (Except ε α) := fun a b =>
  match a, b with
  | .ok x, .ok y => if h : x = y then .isTrue (by rw [h]) else .isFalse (by simp [h])
  | .error x, .error y => if h : x = y then .isTrue (by rw [h]) else .isFalse (by simp [h])
  | .ok _, .error _ => .isFalse (by simp)
  | .error _, .ok _ => .isFalse (by simp)

/-- Result of `get_issue`: the returned `Issue` or the exception that
escaped, plus the warnings printed and the optional sub-requests issued. -/
structure GetIssueResult where
  result : Except PyErr Issue
  warnings : List String
  requests : List Req
deriving Repr, DecidableEq

/-- Model of `GitHubClient.get_issue` (github.py lines 93-153): primary GET
with `raise_for_status` and `.json()`, paginated comments and events each
parsed record-by-record, then the sub-issues and parent resolvers, and
finally assembly of the `Issue`. -/
def getIssue (owner repo : String) (num : Int) (env : FetchEnv) : GetIssueResult :=
  if isSuccess env.primaryStatus then
    match env.primaryBody with
    | none => ⟨.error (.decode "primary issue"), [], []⟩
    | some d =>
      match (getAllPages env.commentsPages []).1 with
      | .error s => ⟨.error (.httpStatus s d.comments_url), [], []⟩
      | .ok commentsRaw =>
        match parseAll "comment" commentsRaw with
        | .error e => ⟨.error e, [], []⟩
        | .ok comments =>
          match (getAllPages env.eventsPages []).1 with
          | .error s => ⟨.error (.httpStatus s d.events_url), [], []⟩
          | .ok eventsRaw =>
            match parseAll "event" eventsRaw with
            | .error e => ⟨.error e, [], []⟩
            | .ok events =>
              let sub := resolveSubIssues owner repo num d env.subResp
              let par := resolveParent d env.parentResp
              ⟨.ok { id := d.id, number := d.number, title := d.title,
                     user := d.user, html_url := d.html_url, state := d.state,
                     created_at := d.created_at, updated_at := d.updated_at,
                     body := d.body, comments_url := d.comments_url,
                     events_url := d.events_url, comments_list := comments,
                     events_list := events, sub_issues_list := sub.1,
                     parent := par.1 },
               sub.2.1 ++ par.2.1, sub.2.2 ++ par.2.2⟩
  else ⟨.error (.httpStatus env.primaryStatus (issueUrl owner repo num)), [], []⟩

/-- Outcome of the single README GET as `get_readme` sees it: a raised
transport/decode error, or a response with status and raw text. -/
inductive ReadmeOutcome where
  | exn : String → ReadmeOutcome
  | resp : Nat → String → ReadmeOutcome
deriving Repr, DecidableEq

/-- Model of `GitHubClient.get_readme` (github.py lines 155-177): every
exception is caught; `raise_for_status` turns any non-2xx status into an
`HTTPStatusError`, caught and mapped to `None` — silently for 404, with a
printed error otherwise.  Returns the content (or `none`) and the warnings
printed. -/
def getReadme (out : ReadmeOutcome) : Option String × List String :=
  match out with
  | .exn m => (none, ["Error fetching README: " ++ m])
  | .resp status text =>
    if isSuccess status then (some text, [])
    else if status = 404 then (none, [])
    else (none, ["Error fetching README: status " ++ toString status])

/-- The issue carried by an `ok` result, if any. -/
def okIssue : Except PyErr Issue → Option Issue
  | .ok i => some i
  | .error _ => none

/-- Whether a result is an `ok` (no exception escaped). -/
def isOkE : Except PyErr Issue → Bool
  | .ok _ => true
  | .error _ => false

/-- The parent field of an `ok` result. -/
def parentOf (r : Except PyErr Issue) : Option (Option SimpleIssue) :=
  (okIssue r).map Issue.parent

/-- The sub-issues field of an `ok` result. -/
def subsOf (r : Except PyErr Issue) : Option (List SimpleIssue) :=
  (okIssue r).map Issue.sub_issues_list

/-! ## Failure classification of the optional resolvers -/

/-- The sub-issues attempt failed: the GET raised, the status was not 200,
or the 200 body could not be decoded into records. -/
def subFailed : GetOutcome SubBody → Bool
  | .exn _ => true
  | .resp s b => if s = 200 then (match b with | .items _ => false | _ => true) else true

/-- The sub-issues attempt raised an exception inside the `try` (transport
error, `.json()` failure, or validation failure on a 200 body). -/
def subExnLike : GetOutcome SubBody → Bool
  | .exn _ => true
  | .resp s b => if s = 200 then (match b with | .items _ => false | _ => true) else false

/-- The parent follow-up attempt failed. -/
def parentFailed : GetOutcome ParentBody → Bool
  | .exn _ => true
  | .resp s b => if s = 200 then (match b with | .issue _ => false | _ => true) else true

/-- The parent follow-up attempt raised an exception inside the `try`. -/
def parentExnLike : GetOutcome ParentBody → Bool
  | .exn _ => true
  | .resp s b => if s = 200 then (match b with | .issue _ => false | _ => true) else false

/-- The README fetch failed: the GET raised, or `raise_for_status` raised on
a non-2xx status. -/
def readmeFailed : ReadmeOutcome → Bool
  | .exn _ => true
  | .resp s _ => !isSuccess s

/-- The README failures that print a warning: every raised exception except
the 404 `HTTPStatusError`, which returns `None` silently. -/
def readmeWarned : ReadmeOutcome → Bool
  | .exn _ => true
  | .resp s _ => if isSuccess s then false else decide (s ≠ 404)

/-- When the primary fetch, comments and events all succeed, `get_issue`
reduces to the assembled issue with the resolver outputs joined in. -/
theorem getIssue_good (owner repo : String) (num : Int) (env : FetchEnv)
    (d : IssueData) (craw : List (Option Comment)) (cs : List Comment)
    (eraw : List (Option Event)) (es : List Event)
    (hps : isSuccess env.primaryStatus = true) (hpb : env.primaryBody = some d)
    (hcraw : (getAllPages env.commentsPages []).1 = .ok craw)
    (hcs : parseAll "comment" craw = .ok cs)
    (heraw : (getAllPages env.eventsPages []).1 = .ok eraw)
    (hes : parseAll "event" eraw = .ok es) :
    getIssue owner repo num env =
      ⟨.ok { id := d.id, number := d.number, title := d.title, user := d.user,
             html_url := d.html_url, state := d.state,
             created_at := d.created_at, updated_at := d.updated_at,
             body := d.body, comments_url := d.comments_url,
             events_url := d.events_url, comments_list := cs,
             events_list := es,
             sub_issues_list := (resolveSubIssues owner repo num d env.subResp).1,
             parent := (resolveParent d env.parentResp).1 },
       (resolveSubIssues owner repo num d env.subResp).2.1 ++
         (resolveParent d env.parentResp).2.1,
       (resolveSubIssues owner repo num d env.subResp).2.2 ++
         (resolveParent d env.parentResp).2.2⟩ := by
  simp only [getIssue, hps, if_true, hpb, hcraw, hcs, heraw, hes]

theorem resolveSubIssues_req (owner repo : String) (num : Int) (d : IssueData)
    (out : GetOutcome SubBody) :
    ∀ r ∈ (resolveSubIssues owner repo num d out).2.2,
      r = Req.subReq (subIssuesUrl owner repo num) := by
  intro r hr
  rcases hs : d.sub_issues_summary with _ | s <;>
    simp only [resolveSubIssues, hs] at hr
  · simp at hr
  · by_cases ht : 0 < s.total
    · simp only [ht, if_true] at hr
      rcases out with m | ⟨st, b⟩
      · simpa using hr
      · by_cases h2 : st = 200
        · rcases b <;> simp [h2] at hr <;> exact hr
        · simp [h2] at hr; exact hr
    · simp [ht] at hr

theorem resolveParent_req (d : IssueData) (out : GetOutcome ParentBody) :
    ∀ r ∈ (resolveParent d out).2.2, ∃ u, r = Req.parentReq u := by
  intro r hr
  rcases hp : d.parent with _ | p <;> simp only [resolveParent, hp] at hr
  · rcases hu : d.parent_issue_url with _ | u <;> simp only [hu] at hr
    · simp at hr
    · by_cases he : u = ""
      · simp [he] at hr
      · simp only [he, if_false] at hr
        rcases out with m | ⟨st, b⟩
        · simp at hr; exact ⟨u, hr⟩
        · by_cases h2 : st = 200
          · rcases b <;> simp [h2] at hr <;> exact ⟨u, hr⟩
          · simp [h2] at hr; exact ⟨u, hr⟩
  · simp at hr

/-- A concrete primary-issue record used by the counterexamples and
witnesses: one advertised sub-issue, no inline parent, no parent URL. -/
def dSub : IssueData :=
  { id := 10, number := 1, title := "t", user := ⟨"alice", "https://g/alice"⟩,
    html_url := "https://g/o/r/issues/1", state := "open",
    created_at := "2024-01-01", comments_url := "https://api/comments",
    events_url := "https://api/events",
    sub_issues_summary := some ⟨1⟩ }

/-- One successful empty page, for the comments and events endpoints. -/
def emptyPage {α : Type} : Page α := ⟨200, some [], false⟩

/-- Transport for the C1 counterexample: everything succeeds except the
sub-issues GET, which returns a 500 status. -/
def envC1 : FetchEnv :=
  { primaryStatus := 200, primaryBody := some dSub,
    commentsPages := [emptyPage], eventsPages := [emptyPage],
    subResp := .resp 500 (.items []), parentResp := .resp 200 .badJson }

/-- Claim C1 counterexample: the sub-issues fetch fails (HTTP 500), the
resolver degrades to an empty list — but no warning is printed, refuting
"converted to an absent/empty value plus a warning". -/
theorem c1_counterexample :
    subFailed envC1.subResp = true ∧
    getIssue "o" "r" 1 envC1 =
      ⟨.ok { id := 10, number := 1, title := "t",
             user := ⟨"alice", "https://g/alice"⟩,
             html_url := "https://g/o/r/issues/1", state := "open",
             created_at := "2024-01-01", comments_url := "https://api/comments",
             events_url := "https://api/events", comments_list := [],
             events_list := [], sub_issues_list := [], parent := none },
       [], [.subReq (subIssuesUrl "o" "r" 1)]⟩ := by
  constructor
  · rfl
  · rfl

/-- Claim C1 (amended): any failure during an optional sub-resource
resolution (sub-issues fetch, parent follow-up fetch, README fetch) is
caught inside the resolver and converted to an absent/empty value, and no
exception from an optional resolver ever propagates out of `get_issue` or
`get_readme`; a warning is printed exactly when the failure is a raised
exception (transport, decode or validation error) — a plain non-success
status on the sub-issues or parent GET degrades silently, and a 404 on the
README GET yields `none` silently. -/
theorem c1_optional_failures_contained :
    (∀ (owner repo : String) (num : Int) (env : FetchEnv) (d : IssueData)
       (craw : List (Option Comment)) (cs : List Comment)
       (eraw : List (Option Event)) (es : List Event),
       isSuccess env.primaryStatus = true → env.primaryBody = some d →
       (getAllPages env.commentsPages []).1 = .ok craw →
       parseAll "comment" craw = .ok cs →
       (getAllPages env.eventsPages []).1 = .ok eraw →
       parseAll "event" eraw = .ok es →
       isOkE (getIssue owner repo num env).result = true) ∧
    (∀ (owner repo : String) (num : Int) (d : IssueData) (s : SubIssuesSummary)
       (out : GetOutcome SubBody),
       d.sub_issues_summary = some s → 0 < s.total → subFailed out = true →
       (resolveSubIssues owner repo num d out).1 = [] ∧
       ((resolveSubIssues owner repo num d out).2.1 ≠ [] ↔ subExnLike out = true)) ∧
    (∀ (d : IssueData) (u : String) (out : GetOutcome ParentBody),
       d.parent = none → d.parent_issue_url = some u → u ≠ "" →
       parentFailed out = true →
       (resolveParent d out).1 = none ∧
       ((resolveParent d out).2.1 ≠ [] ↔ parentExnLike out = true)) ∧
    (∀ out : ReadmeOutcome,
       (readmeFailed out = true → (getReadme out).1 = none) ∧
       ((getReadme out).2 ≠ [] ↔ readmeWarned out = true)) := by
  refine ⟨?_, ?_, ?_, ?_⟩
  · intro owner repo num env d craw cs eraw es hps hpb hcraw hcs heraw hes
    rw [getIssue_good owner repo num env d craw cs eraw es hps hpb hcraw hcs heraw hes]
    rfl
  · intro owner repo num d s out hsum ht hf
    simp only [resolveSubIssues, hsum, ht, if_true]
    rcases out with m | ⟨st, b⟩
    · simp [subExnLike]
    · by_cases h2 : st = 200
      · subst h2
        rcases b with _ | _ | l
        · simp [subExnLike]
        · simp [subExnLike]
        · exfalso; simp [subFailed] at hf
      · simp [h2, subExnLike]
  · intro d u out hpar hurl hne hf
    simp only [resolveParent, hpar, hurl]
    rw [if_neg hne]
    rcases out with m | ⟨st, b⟩
    · simp [parentExnLike]
    · by_cases h2 : st = 200
      · subst h2
        rcases b with _ | _ | si
        · simp [parentExnLike]
        · simp [parentExnLike]
        · exfalso; simp [parentFailed] at hf
      · simp [h2, parentExnLike]
  · intro out
    rcases out with m | ⟨st, t⟩
    · simp [getReadme, readmeFailed, readmeWarned]
    · by_cases hs : isSuccess st = true
      · simp [getReadme, readmeFailed, readmeWarned, hs]
      · have hs' : isSuccess st = false := by simpa using hs
        by_cases h4 : st = 404
        · subst h4
          simp [getReadme, readmeFailed, readmeWarned, hs']
        · simp [getReadme, readmeFailed, readmeWarned, hs', h4]

theorem c1_optional_failures_contained_witness :
    isOkE (getIssue "o" "r" 1 envC1).result = true :=
  c1_optional_failures_contained.1 "o" "r" 1 envC1 dSub [] [] [] []
    (by decide) rfl (by decide) rfl (by decide) rfl

/-- Transport for the C2 counterexample: the primary fetch succeeds but the
first comments page returns a 500 status. -/
def envC2 : FetchEnv :=
  { primaryStatus := 200, primaryBody := some dSub,
    commentsPages := [⟨500, some [], false⟩], eventsPages := [emptyPage],
    subResp := .resp 200 (.items []), parentResp := .resp 200 .badJson }

/-- Claim C2 counterexample: a failing comments page makes `get_issue`
raise, refuting "for every other resolver ... a failure does not cause
get_issue to raise". -/
theorem c2_counterexample :
    (getIssue "o" "r" 1 envC2).result =
      .error (.httpStatus 500 "https://api/comments") := by
  rfl

/-- Claim C2 (amended): the primary issue fetch fails with an error on any
non-success HTTP status, and a failing comments or events page also makes
`get_issue` raise; only the sub-issues and parent resolvers (and the README
resolver in `get_readme`) degrade without raising. -/
theorem c2_primary_fails_hard :
    (∀ (owner repo : String) (num : Int) (env : FetchEnv),
      isSuccess env.primaryStatus = false →
      (getIssue owner repo num env).result =
        .error (.httpStatus env.primaryStatus (issueUrl owner repo num))) ∧
    (∀ (owner repo : String) (num : Int) (env : FetchEnv) (d : IssueData) (s : Nat),
      isSuccess env.primaryStatus = true → env.primaryBody = some d →
      (getAllPages env.commentsPages []).1 = .error s →
      (getIssue owner repo num env).result = .error (.httpStatus s d.comments_url)) ∧
    (∀ (owner repo : String) (num : Int) (env : FetchEnv) (d : IssueData)
       (craw : List (Option Comment)) (cs : List Comment) (s : Nat),
      isSuccess env.primaryStatus = true → env.primaryBody = some d →
      (getAllPages env.commentsPages []).1 = .ok craw →
      parseAll "comment" craw = .ok cs →
      (getAllPages env.eventsPages []).1 = .error s →
      (getIssue owner repo num env).result = .error (.httpStatus s d.events_url)) ∧
    (∀ (owner repo : String) (num : Int) (env : FetchEnv) (d : IssueData)
       (craw : List (Option Comment)) (cs : List Comment)
       (eraw : List (Option Event)) (es : List Event),
       isSuccess env.primaryStatus = true → env.primaryBody = some d →
       (getAllPages env.commentsPages []).1 = .ok craw →
       parseAll "comment" craw = .ok cs →
       (getAllPages env.eventsPages []).1 = .ok eraw →
       parseAll "event" eraw = .ok es →
       isOkE (getIssue owner repo num env).result = true) := by
  refine ⟨?_, ?_, ?_, ?_⟩
  · intro owner repo num env hps
    simp only [getIssue, hps, Bool.false_eq_true, if_false]
  · intro owner repo num env d s hps hpb hc
    simp only [getIssue, hps, if_true, hpb, hc]
  · intro owner repo num env d craw cs s hps hpb hcraw hcs he
    simp only [getIssue, hps, if_true, hpb, hcraw, hcs, he]
  · intro owner repo num env d craw cs eraw es hps hpb hcraw hcs heraw hes
    rw [getIssue_good owner repo num env d craw cs eraw es hps hpb hcraw hcs heraw hes]
    rfl

/-- Transport for the C2 witness: the primary fetch itself returns 404. -/
def envC2w : FetchEnv :=
  { primaryStatus := 404, primaryBody := none,
    commentsPages := [emptyPage], eventsPages := [emptyPage],
    subResp := .resp 200 (.items []), parentResp := .resp 200 .badJson }

theorem c2_primary_fails_hard_witness :
    (getIssue "o" "r" 1 envC2w).result =
      .error (.httpStatus 404 (issueUrl "o" "r" 1)) :=
  c2_primary_fails_hard.1 "o" "r" 1 envC2w (by decide)

/-- Claim C4: when the primary record carries both an inline parent object
and a parent-reference URL, the assembled thread's parent equals the issue
built from the inline object and no follow-up GET to the parent-reference
URL is issued. -/
theorem c4_inline_parent_precedence
    (owner repo : String) (num : Int) (env : FetchEnv) (d : IssueData)
    (p : SimpleIssue) (u : String)
    (craw : List (Option Comment)) (cs : List Comment)
    (eraw : List (Option Event)) (es : List Event)
    (hps : isSuccess env.primaryStatus = true) (hpb : env.primaryBody = some d)
    (hcraw : (getAllPages env.commentsPages []).1 = .ok craw)
    (hcs : parseAll "comment" craw = .ok cs)
    (heraw : (getAllPages env.eventsPages []).1 = .ok eraw)
    (hes : parseAll "event" eraw = .ok es)
    (hpar : d.parent = some p) (hurl : d.parent_issue_url = some u) :
    parentOf (getIssue owner repo num env).result = some (some p) ∧
    ∀ u', Req.parentReq u' ∉ (getIssue owner repo num env).requests := by
  rw [getIssue_good owner repo num env d craw cs eraw es hps hpb hcraw hcs heraw hes]
  constructor
  · simp [parentOf, okIssue, resolveParent, hpar]
  · intro u' hmem
    simp only [List.mem_append] at hmem
    rcases hmem with hmem | hmem
    · have := resolveSubIssues_req owner repo num d env.subResp _ hmem
      exact absurd this (by simp)
    · rw [show resolveParent d env.parentResp = (some p, [], []) by
        simp [resolveParent, hpar]] at hmem
      simp at hmem

/-- Primary record with both an inline parent and a parent URL. -/
def dBoth : IssueData :=
  { dSub with
    sub_issues_summary := none
    parent := some ⟨7, "par", "https://g/o/r/issues/7", "open", none, none, none, none⟩
    parent_issue_url := some "https://api/repos/o/r/issues/7" }

def envC4 : FetchEnv :=
  { primaryStatus := 200, primaryBody := some dBoth,
    commentsPages := [emptyPage], eventsPages := [emptyPage],
    subResp := .resp 200 (.items []), parentResp := .resp 200 .badJson }

theorem c4_inline_parent_precedence_witness :
    parentOf (getIssue "o" "r" 1 envC4).result =
      some (some ⟨7, "par", "https://g/o/r/issues/7", "open", none, none, none, none⟩) ∧
    Req.parentReq "https://api/repos/o/r/issues/7" ∉
      (getIssue "o" "r" 1 envC4).requests := by
  have h := c4_inline_parent_precedence "o" "r" 1 envC4 dBoth
    ⟨7, "par", "https://g/o/r/issues/7", "open", none, none, none, none⟩
    "https://api/repos/o/r/issues/7" [] [] [] []
    (by decide) rfl (by decide) rfl (by decide) rfl rfl rfl
  exact ⟨h.1, h.2 "https://api/repos/o/r/issues/7"⟩

/-- Claim C7: when the primary record advertises zero sub-issues or carries
no sub-issue summary, the sub-issues resolver issues no request and the
assembled `sub_issues_list` is empty; and `sub_issues_list` can be
non-empty only when a positive count was declared. -/
theorem c7_subissues_trigger
    (owner repo : String) (num : Int) (env : FetchEnv) (d : IssueData)
    (craw : List (Option Comment)) (cs : List Comment)
    (eraw : List (Option Event)) (es : List Event)
    (hps : isSuccess env.primaryStatus = true) (hpb : env.primaryBody = some d)
    (hcraw : (getAllPages env.commentsPages []).1 = .ok craw)
    (hcs : parseAll "comment" craw = .ok cs)
    (heraw : (getAllPages env.eventsPages []).1 = .ok eraw)
    (hes : parseAll "event" eraw = .ok es) :
    ((d.sub_issues_summary = none ∨
        ∃ s, d.sub_issues_summary = some s ∧ s.total ≤ 0) →
      subsOf (getIssue owner repo num env).result = some [] ∧
      ∀ u, Req.subReq u ∉ (getIssue owner repo num env).requests) ∧
    (∀ l, subsOf (getIssue owner repo num env).result = some l → l ≠ [] →
      ∃ s, d.sub_issues_summary = some s ∧ 0 < s.total) := by
  rw [getIssue_good owner repo num env d craw cs eraw es hps hpb hcraw hcs heraw hes]
  have hsubeq : (∀ s, d.sub_issues_summary = some s → s.total ≤ 0) →
      resolveSubIssues owner repo num d env.subResp = ([], [], []) := by
    intro h
    rcases hs : d.sub_issues_summary with _ | s
    · simp [resolveSubIssues, hs]
    · have := h s hs
      simp [resolveSubIssues, hs, show ¬ (0 < s.total) by omega]
  constructor
  · intro h
    have hz : resolveSubIssues owner repo num d env.subResp = ([], [], []) := by
      apply hsubeq
      intro s' hs'
      rcases h with h | ⟨s, hs, ht⟩
      · rw [h] at hs'; exact absurd hs' (by simp)
      · rw [hs] at hs'; injection hs' with hss; rw [← hss]; exact ht
    rw [hz]
    refine ⟨by simp [subsOf, okIssue], ?_⟩
    intro u hmem
    simp only [List.nil_append] at hmem
    have := resolveParent_req d env.parentResp _ hmem
    rcases this with ⟨v, hv⟩
    exact absurd hv (by simp)
  · intro l hl hne
    have hl' : (resolveSubIssues owner repo num d env.subResp).1 = l := by
      simpa [subsOf, okIssue, Option.map] using hl
    rcases hs : d.sub_issues_summary with _ | s
    · exfalso
      apply hne
      rw [← hl']
      simp [resolveSubIssues, hs]
    · refine ⟨s, rfl, ?_⟩
      by_contra ht
      apply hne
      rw [← hl']
      simp [resolveSubIssues, hs, show ¬ (0 < s.total) from ht]

/-- Primary record with no sub-issue summary at all. -/
def dNoSub : IssueData := { dSub with sub_issues_summary := none }

def envC7 : FetchEnv :=
  { primaryStatus := 200, primaryBody := some dNoSub,
    commentsPages := [emptyPage], eventsPages := [emptyPage],
    subResp := .resp 200 (.items [⟨9, "s", "https://g/s", "open", none, none, none, none⟩]),
    parentResp := .resp 200 .badJson }

theorem c7_subissues_trigger_witness :
    subsOf (getIssue "o" "r" 1 envC7).result = some [] ∧
    Req.subReq (subIssuesUrl "o" "r" 1) ∉ (getIssue "o" "r" 1 envC7).requests := by
  have h := c7_subissues_trigger "o" "r" 1 envC7 dNoSub [] [] [] []
    (by decide) rfl (by decide) rfl (by decide) rfl
  have h1 := h.1 (Or.inl rfl)
  exact ⟨h1.1, h1.2 (subIssuesUrl "o" "r" 1)⟩

/-! ## Context renderer (llm.py lines 18-83, the prompt construction inside
`get_summary`; the API-key gate and the model call around it are external).
Apostrophes in the rendered XML-ish attributes are written `'`. -/

theorem data_append (s t : String) : (s ++ t).data = s.data ++ t.data := rfl

/-- Python string slicing `s[:n]`: the first `n` characters. -/
def pyTake (s : String) (n : Nat) : String := ⟨s.data.take n⟩

/-- `needle` occurs verbatim (as a contiguous substring) in `hay`. -/
def strSub (needle hay : String) : Prop :=
  ∃ a b : List Char, hay.data = a ++ needle.data ++ b

theorem strSub_self (n : String) : strSub n n := ⟨[], [], by simp⟩

theorem strSub_appendL (g : String) {n h : String} (hs : strSub n h) :
    strSub n (g ++ h) := by
  obtain ⟨a, b, hh⟩ := hs
  exact ⟨g.data ++ a, b, by simp [data_append, hh]⟩

theorem strSub_appendR (g : String) {n h : String} (hs : strSub n h) :
    strSub n (h ++ g) := by
  obtain ⟨a, b, hh⟩ := hs
  exact ⟨a, b ++ g.data, by simp [data_append, hh]⟩

/-- The `prompt += ...` loop bodies concatenated over a list. -/
def concatMapStr {α : Type} (f : α → String) : List α → String
  | [] => ""
  | x :: xs => f x ++ concatMapStr f xs

theorem strSub_concatMap {α : Type} (f : α → String) (n : String)
    (xs : List α) (x : α) (hx : x ∈ xs) (h : strSub n (f x)) :
    strSub n (concatMapStr f xs) := by
  induction xs with
  | nil => simp at hx
  | cons y ys ih =>
    rcases List.mem_cons.mp hx with rfl | hx'
    · exact strSub_appendR _ h
    · exact strSub_appendL _ (ih hx')

/-- One `<comment>` block (llm.py lines 34-39). -/
def commentBlock (c : Comment) : String :=
  "<comment>\n" ++ "<author>" ++ c.user.login ++ "</author>\n" ++
  "<date>" ++ c.created_at ++ "</date>\n" ++
  "<url>" ++ c.html_url ++ "</url>\n" ++
  "<body>\n" ++ c.body ++ "\n</body>\n" ++ "</comment>\n"

/-- The `<comments>` section (llm.py lines 31-40); rendered only when the
comment list is truthy (non-empty). -/
def commentsSection (cs : List Comment) : String :=
  if cs = [] then "" else "<comments>\n" ++ concatMapStr commentBlock cs ++ "</comments>\n"

/-- The nested `<linked_issue>` excerpt (llm.py lines 50-57); the linked
body is truncated to 200 characters and included only when truthy. -/
def linkedBlock (li : SimpleIssue) : String :=
  "  <linked_issue state='" ++ li.state ++ "' number='" ++
  toString li.number ++ "'>\n" ++
  "    <title>" ++ li.title ++ "</title>\n" ++
  "    <url>" ++ li.html_url ++ "</url>\n" ++
  (match li.body with
   | some b => if b = "" then "" else "    <body>" ++ pyTake b 200 ++ "...</body>\n"
   | none => "") ++
  "  </linked_issue>\n"

/-- `event.actor.login if event.actor else "Unknown"` (llm.py line 45). -/
def actorLogin : Option User → String
  | some a => a.login
  | none => "Unknown"

/-- The optional ` commit_id='...'` attribute (llm.py lines 47-48);
rendered only when the commit id is truthy. -/
def commitPart : Option String → String
  | some cid => if cid = "" then "" else " commit_id='" ++ cid ++ "'"
  | none => ""

/-- The optional nested linked-issue excerpt (llm.py lines 50-57);
rendered only when both `event.source` and `event.source.issue` are
truthy. -/
def sourcePart : Option EventSource → String
  | some es => (match es.issue with | some li => linkedBlock li | none => "")
  | none => ""

/-- One `<event>` block (llm.py lines 44-58). -/
def eventBlock (e : Event) : String :=
  "<event type='" ++ e.event ++ "' actor='" ++ actorLogin e.actor ++
  "' date='" ++ e.created_at ++ "'" ++ commitPart e.commit_id ++ ">\n" ++
  sourcePart e.source ++ "</event>\n"

/-- The `<events>` section (llm.py lines 42-59). -/
def eventsSection (es : List Event) : String :=
  if es = [] then "" else "<events>\n" ++ concatMapStr eventBlock es ++ "</events>\n"

/-- The truncation-marker text that llm.py line 29 places right after the
truncated README content. -/
def truncationMarker : String := "... (truncated if too long)"

/-- The `<project_readme>` section (llm.py lines 28-29): rendered only when
the README content is truthy, truncated to 10,000 characters, always
followed by the truncation marker and the closing tag. -/
def readmeSection (readme : Option String) : String :=
  match readme with
  | none => ""
  | some r =>
    if r = "" then ""
    else "<project_readme>\n" ++ pyTake r 10000 ++ truncationMarker ++
      "\n</project_readme>\n"

/-- The `<issue>` header section (llm.py lines 20-26); a falsy body renders
as `(No body)`. -/
def issueSection (i : Issue) : String :=
  "<issue>\n" ++ "<title>" ++ i.title ++ "</title>\n" ++
  "<author>" ++ i.user.login ++ "</author>\n" ++
  "<state>" ++ i.state ++ "</state>\n" ++
  "<created_at>" ++ i.created_at ++ "</created_at>\n" ++
  "<body>\n" ++
  (match i.body with | some b => if b = "" then "(No body)" else b | none => "(No body)") ++
  "\n</body>\n" ++ "</issue>\n"

/-- The fixed instruction text appended after `</context>` (llm.py lines
63-83, the triple-quoted literal, including its leading newline and
indentation). -/
def promptInstructions : String :=
  "\n    You are an expert technical editor summarizing a GitHub issue discussion based on the context provided above.\n    Produce a succinct, academic-style review of the conversation.\n\n    CRITICAL REQUIREMENTS:\n    1. **Style**: EXTREMELY concise, dense, and objective. Avoid ALL fluff. Be telegraphic.\n    2. **Citations**: Use inline markdown links for every claim using incrementing numbers, e.g., \"The proposed API changes [(1)](url) were debated, with concerns raised about backward compatibility [(2)](url), [(3)](url).\"\n    3. **Content**: Capture the core problem, proposed solutions, consensus (or lack thereof), and next steps.\n    4. **Focus**: Do NOT begin by stating \"Issue requests...\" or summarizing the title/body if it's generic. Assume the reader knows the title. START IMMEDIATELY with the *discussion*, *technical debate*, or *proposed solutions*.\n\n    Produce the summary in Markdown. Structure it as follows:\n\n    ### Executive Summary\n    (Maximum 2-3 sentences. Ultra-dense summary of the issue, key debates, and current status, heavily cited.)\n\n    ### Key Technical Points\n    *   (Short, single-line bullet points for major technical arguments or decisions. Use inline citations profusely.)\n\n    ### Action Items\n    *   (Concise list of next steps or open tasks, with citations.)\n    "

/-- The full rendered context document handed to the summarizer (llm.py
lines 18-83). -/
def buildPrompt (issue : Issue) (readme : Option String) : String :=
  "<context>\n" ++ issueSection issue ++ readmeSection readme ++
  commentsSection issue.comments_list ++ eventsSection issue.events_list ++
  "</context>\n\n" ++ promptInstructions

theorem strSub_commentBlock (c : Comment) : strSub c.html_url (commentBlock c) := by
  unfold commentBlock
  apply strSub_appendR
  apply strSub_appendR
  apply strSub_appendR
  apply strSub_appendR
  apply strSub_appendR
  exact strSub_appendL _ (strSub_self _)

theorem strSub_linkedBlock (li : SimpleIssue) :
    strSub li.html_url (linkedBlock li) := by
  unfold linkedBlock
  apply strSub_appendR
  apply strSub_appendR
  apply strSub_appendR
  exact strSub_appendL _ (strSub_self _)

theorem strSub_eventBlock (e : Event) (es : EventSource) (li : SimpleIssue)
    (hsrc : e.source = some es) (hiss : es.issue = some li) :
    strSub li.html_url (eventBlock e) := by
  have hsp : sourcePart e.source = linkedBlock li := by
    rw [hsrc]; simp [sourcePart, hiss]
  unfold eventBlock
  rw [hsp]
  apply strSub_appendR
  exact strSub_appendL _ (strSub_linkedBlock li)

theorem strSub_buildPrompt_comments (issue : Issue) (readme : Option String)
    {n : String} (h : strSub n (commentsSection issue.comments_list)) :
    strSub n (buildPrompt issue readme) := by
  unfold buildPrompt
  apply strSub_appendR
  apply strSub_appendR
  apply strSub_appendR
  exact strSub_appendL _ h

theorem strSub_buildPrompt_events (issue : Issue) (readme : Option String)
    {n : String} (h : strSub n (eventsSection issue.events_list)) :
    strSub n (buildPrompt issue readme) := by
  unfold buildPrompt
  apply strSub_appendR
  apply strSub_appendR
  exact strSub_appendL _ h

/-- Claim C5: the rendered context document contains each comment's source
URL verbatim, and each timeline event's source URL — the URL of the
event's source issue, the only URL an event record carries — verbatim. -/
theorem c5_source_urls_verbatim (issue : Issue) (readme : Option String) :
    (∀ c ∈ issue.comments_list, strSub c.html_url (buildPrompt issue readme)) ∧
    (∀ e ∈ issue.events_list, ∀ (es : EventSource) (li : SimpleIssue),
      e.source = some es → es.issue = some li →
      strSub li.html_url (buildPrompt issue readme)) := by
  constructor
  · intro c hc
    apply strSub_buildPrompt_comments
    unfold commentsSection
    rw [if_neg (by intro hnil; rw [hnil] at hc; simp at hc)]
    apply strSub_appendR
    exact strSub_appendL _ (strSub_concatMap commentBlock _ _ c hc (strSub_commentBlock c))
  · intro e he es li hsrc hiss
    apply strSub_buildPrompt_events
    unfold eventsSection
    rw [if_neg (by intro hnil; rw [hnil] at he; simp at he)]
    apply strSub_appendR
    exact strSub_appendL _
      (strSub_concatMap eventBlock _ _ e he (strSub_eventBlock e es li hsrc hiss))

/-- A concrete thread with one comment and one cross-reference event. -/
def issueC5 : Issue :=
  { id := 1, number := 2, title := "t", user := ⟨"u", "hu"⟩, html_url := "hi",
    state := "open", created_at := "d", comments_url := "cu", events_url := "eu",
    comments_list := [⟨5, ⟨"bob", "hb"⟩, "hello", "https://g/c/5", "d1"⟩],
    events_list := [⟨6, "cross-referenced", none, "d2", none,
      some ⟨some "issue", some ⟨3, "lt", "https://g/i/3", "open", none, none, none, none⟩⟩⟩] }

theorem c5_source_urls_verbatim_witness :
    strSub "https://g/c/5" (buildPrompt issueC5 none) ∧
    strSub "https://g/i/3" (buildPrompt issueC5 none) := by
  have h := c5_source_urls_verbatim issueC5 none
  exact ⟨h.1 ⟨5, ⟨"bob", "hb"⟩, "hello", "https://g/c/5", "d1"⟩ (by simp [issueC5]),
    h.2 ⟨6, "cross-referenced", none, "d2", none,
        some ⟨some "issue", some ⟨3, "lt", "https://g/i/3", "open", none, none, none, none⟩⟩⟩
      (by simp [issueC5])
      ⟨some "issue", some ⟨3, "lt", "https://g/i/3", "open", none, none, none, none⟩⟩
      ⟨3, "lt", "https://g/i/3", "open", none, none, none, none⟩ rfl rfl⟩

/-- Claim C9: for every README longer than 10,000 characters, the rendered
context document contains exactly the first 10,000 characters of the
README followed by the truncation marker. -/
theorem c9_readme_truncated (issue : Issue) (readme : String)
    (h : 10000 < readme.length) :
    strSub (pyTake readme 10000 ++ truncationMarker) (buildPrompt issue (some readme)) := by
  have hne : readme ≠ "" := by
    intro hr
    rw [hr] at h
    simp [String.length] at h
  have hrs : readmeSection (some readme) =
      "<project_readme>\n" ++ pyTake readme 10000 ++ truncationMarker ++
        "\n</project_readme>\n" := by
    simp [readmeSection, hne]
  unfold buildPrompt
  apply strSub_appendR
  apply strSub_appendR
  apply strSub_appendR
  apply strSub_appendR
  apply strSub_appendL
  rw [hrs]
  refine ⟨("<project_readme>\n" : String).data, ("\n</project_readme>\n" : String).data, ?_⟩
  simp [data_append, List.append_assoc]

/-- A 10,001-character README. -/
def readmeC9 : String := String.mk (List.replicate 10001 'a')

theorem c9_readme_truncated_witness :
    strSub (pyTake readmeC9 10000 ++ truncationMarker)
      (buildPrompt issueC5 (some readmeC9)) :=
  c9_readme_truncated issueC5 readmeC9
    (by
      have h1 : readmeC9.length = (List.replicate 10001 'a').length := rfl
      rw [List.length_replicate] at h1
      omega)

/-! ## Character-list utilities modelling the Python string primitives used
by `parse_issue_query` (main.py lines 14-36) and the parent-chain block of
`summarize` (main.py lines 100-121). -/

/-- `sep` is a prefix of the second list. -/
def startsL : List Char → List Char → Bool
  | [], _ => true
  | _ :: _, [] => false
  | a :: as, b :: bs => a == b && startsL as bs

/-- Split at the first occurrence of `sep`: the characters before it and
the characters after it (Python `str.find` plus slicing); `none` when
`sep` does not occur. -/
def splitFirstL (sep : List Char) : List Char → Option (List Char × List Char)
  | [] => none
  | c :: rest =>
    if startsL sep (c :: rest) then some ([], (c :: rest).drop sep.length)
    else
      match splitFirstL sep rest with
      | some (a, b) => some (c :: a, b)
      | none => none

/-- Whether `sep` occurs in `l`. -/
def occursIn (sep l : List Char) : Bool := (splitFirstL sep l).isSome

/-- Python `str.split(sep)` for a non-empty separator, fuel-driven; the
fuel `l.length + 1` always suffices because every piece consumed together
with the separator is non-empty. -/
def pySplitAux (sep : List Char) : Nat → List Char → List (List Char)
  | 0, l => [l]
  | fuel + 1, l =>
    match splitFirstL sep l with
    | none => [l]
    | some (a, b) => a :: pySplitAux sep fuel b

def pySplitL (sep l : List Char) : List (List Char) :=
  pySplitAux sep (l.length + 1) l

/-- Python `str.split(c)` for a one-character separator (keeps empty
pieces, as Python does). -/
def splitCharL (c : Char) : List Char → List (List Char)
  | [] => [[]]
  | x :: xs =>
    if x == c then [] :: splitCharL c xs
    else
      match splitCharL c xs with
      | [] => [[x]]
      | y :: ys => (x :: y) :: ys

/-- Python `str.strip(c)` for a one-character strip set: removes the
character from both ends. -/
def stripCharL (c : Char) (l : List Char) : List Char :=
  ((l.dropWhile (· == c)).reverse.dropWhile (· == c)).reverse

/-- The whitespace characters `int()` strips. -/
def isPySpace (c : Char) : Bool :=
  c == ' ' || c == '\t' || c == '\n' || c == '\r' ||
  c == Char.ofNat 11 || c == Char.ofNat 12

def digitVal (c : Char) : Nat := c.toNat - '0'.toNat

/-- Digit run with single underscores allowed between digits (PEP 515), as
`int()` accepts; `\d` and `int()` digits are modelled as ASCII digits
(non-ASCII decimal digits are outside the model's scope). -/
def digitsUAux (acc : Nat) : List Char → Option Nat
  | [] => some acc
  | c :: rest =>
    if c.isDigit then digitsUAux (acc * 10 + digitVal c) rest
    else if c == '_' then
      match rest with
      | d :: rest2 => if d.isDigit then digitsUAux (acc * 10 + digitVal d) rest2 else none
      | [] => none
    else none

def digitsU : List Char → Option Nat
  | [] => none
  | c :: rest => if c.isDigit then digitsUAux (digitVal c) rest else none

/-- Model of Python `int(s)` on ASCII inputs: strip whitespace, accept an
optional sign and an underscore-grouped digit run; `none` when `int()`
raises `ValueError`. -/
def pyIntL (l : List Char) : Option Int :=
  match ((l.dropWhile isPySpace).reverse.dropWhile isPySpace).reverse with
  | '+' :: ds => (digitsU ds).map Int.ofNat
  | '-' :: ds => (digitsU ds).map (fun n => -(Int.ofNat n))
  | ds => (digitsU ds).map Int.ofNat

/-- Characters allowed in a URL scheme (`urllib.parse.scheme_chars`). -/
def isSchemeChar (c : Char) : Bool :=
  c.isAlpha || c.isDigit || c == '+' || c == '-' || c == '.'

/-- CPython `urlsplit` input sanitisation: left-strip C0 controls and
spaces (CPython only lstrips the URL, preserving trailing characters),
then remove tab, CR and LF everywhere. -/
def urlSanitize (l : List Char) : List Char :=
  (l.dropWhile (fun c => c.toNat ≤ 32)).filter
    (fun c => !(c == '\t' || c == '\n' || c == '\r'))

/-- `urlsplit` scheme handling: drop a leading `scheme:` when the part
before the colon is a letter-led run of scheme characters. -/
def dropScheme (l : List Char) : List Char :=
  match l.findIdx? (· == ':') with
  | none => l
  | some i =>
    if 0 < i ∧ (match l with | c :: _ => c.isAlpha | [] => false) = true ∧
        (((l.take i).drop 1).all isSchemeChar) = true
    then l.drop (i + 1) else l

/-- `urlsplit` netloc handling: when the remainder starts with `//`, the
netloc extends to the next `/`, `?` or `#` (or to the end). -/
def dropNetloc (l : List Char) : List Char :=
  match l with
  | '/' :: '/' :: rest =>
    (match rest.findIdx? (fun c => c == '/' || c == '?' || c == '#') with
     | some i => rest.drop i
     | none => [])
  | _ => l

/-- Index of the last occurrence of `c` in `l`. -/
def lastIdxOf (c : Char) (l : List Char) : Option Nat :=
  match l.reverse.findIdx? (· == c) with
  | some k => some (l.length - 1 - k)
  | none => none

/-- CPython `urlparse._splitparams`: split `;params` off the last path
segment. -/
def splitParams (l : List Char) : List Char :=
  if l.any (· == ';') then
    if l.any (· == '/') then
      match lastIdxOf '/' l with
      | some j =>
        (match (l.drop j).findIdx? (· == ';') with
         | some k => l.take (j + k)
         | none => l)
      | none => l
    else
      match l.findIdx? (· == ';') with
      | some i => l.take i
      | none => l
  else l

/-- `urllib.parse.urlparse(url).path` for ASCII inputs (IPv6-bracket
netloc validation is not modelled): sanitise, strip scheme and netloc,
drop fragment and query, split params. -/
def urlparsePath (l : List Char) : List Char :=
  splitParams
    (((dropNetloc (dropScheme (urlSanitize l))).takeWhile (· != '#')).takeWhile (· != '?'))

/-- The shorthand grammar `([^/]+)/([^/]+)#(\d+)` matched against the whole
input: group 1 is everything before the first slash (non-empty), the
remainder must be slash-free and split at its last `#` into a non-empty
group 2 and a non-empty all-digit group 3. -/
def matchShorthandCore (l : List Char) : Option (List Char × List Char × List Char) :=
  let g1 := l.takeWhile (· != '/')
  if g1.length = l.length then none
  else if g1 = [] then none
  else
    let r := l.drop (g1.length + 1)
    if r.any (· == '/') then none
    else
      let ds := (r.reverse.takeWhile (· != '#')).reverse
      if ds.length = r.length then none
      else
        let g2 := r.take (r.length - ds.length - 1)
        if g2 = [] then none
        else if ds = [] then none
        else if ds.all (·.isDigit) then some (g1, g2, ds)
        else none

/-- Model of `re.match(r"^([^/]+)/([^/]+)#(\d+)$", s)` (main.py line 28):
Python's `$` (without `re.MULTILINE`) matches at the end of the string or
just before one trailing newline; since `\d` never matches a newline, the
regex matches exactly when the core grammar matches the input with a
single trailing newline removed. -/
def matchShorthand (l : List Char) : Option (List Char × List Char × List Char) :=
  matchShorthandCore (if l.getLast? = some '\n' then l.dropLast else l)

/-- The segments of the query's URL path:
`parsed.path.strip("/").split("/")` (main.py line 23). -/
def urlParts (query : String) : List (List Char) :=
  splitCharL '/' (stripCharL '/' (urlparsePath query.data))

/-- The shorthand fallback of `parse_issue_query` (main.py lines 28-36):
the regex match, or the final `ValueError`. -/
def shorthandBranch (query : String) : Except String (String × String × Int) :=
  match matchShorthand query.data with
  | some (o, r, ds) =>
    .ok (String.mk o, String.mk r,
      Int.ofNat (ds.foldl (fun a c => a * 10 + digitVal c) 0))
  | none => .error ("Could not parse issue query: " ++ query)

/-- Model of `parse_issue_query` (main.py lines 14-36): the URL branch for
queries starting with `http` (returning `int(parts[3])`, whose
`ValueError` propagates when the fourth segment is not an int literal),
falling through to the shorthand regex otherwise. -/
def parse_issue_query (query : String) : Except String (String × String × Int) :=
  if startsL ("http".data) query.data then
    if 4 ≤ (urlParts query).length ∧ (urlParts query).getD 2 [] = ("issues".data) then
      match pyIntL ((urlParts query).getD 3 []) with
      | some n =>
        .ok (String.mk ((urlParts query).getD 0 []),
          String.mk ((urlParts query).getD 1 []), n)
      | none => .error "invalid literal for int() with base 10"
    else shorthandBranch query
  else shorthandBranch query

/-- Whether `parse_issue_query` raised a `ValueError` (either the final
invalid-query raise or the one from `int()`). -/
def isErrorPQ : Except String (String × String × Int) → Bool
  | .error _ => true
  | .ok _ => false

/-- The URL branch of `parse_issue_query` accepts the query: it starts
with `http`, the stripped path has at least four segments, the third is
`issues`, and the fourth is an `int()` literal. -/
def urlBranchAccepts (query : String) : Prop :=
  startsL ("http".data) query.data = true ∧
  4 ≤ (urlParts query).length ∧
  (urlParts query).getD 2 [] = ("issues".data) ∧
  (pyIntL ((urlParts query).getD 3 [])).isSome = true

/-- The shorthand regex matches the query. -/
def shorthandAccepts (query : String) : Prop :=
  (matchShorthand query.data).isSome = true

instance (query : String) : Decidable (urlBranchAccepts query) := by
  unfold urlBranchAccepts; infer_instance

instance (query : String) : Decidable (shorthandAccepts query) := by
  unfold shorthandAccepts; infer_instance

/-- Claim C6 counterexample: `o/r#0` matches the shorthand grammar with
numeric component `0`, which is not a positive integer, yet the parser
returns the triple `("o", "r", 0)` instead of failing. -/
theorem c6_counterexample :
    parse_issue_query "o/r#0" = .ok ("o", "r", 0) := by
  decide

/-- Claim C6 (amended): for every input on which neither grammar matches —
neither a URL whose stripped path has `{owner}/{repo}/issues/{n}` as its
first four segments with `n` an `int()` literal (extra segments are
tolerated), nor the shorthand `{owner}/{repo}#{digits}` — the query parser
fails with a `ValueError` rather than returning a triple; positivity of
the numeric component is not checked, so a matching grammar with numeric
component zero (or, via the URL branch, negative) returns that
non-positive number. -/
theorem c6_invalid_query_rejected (query : String)
    (h1 : ¬ urlBranchAccepts query) (h2 : ¬ shorthandAccepts query) :
    isErrorPQ (parse_issue_query query) = true := by
  unfold parse_issue_query
  by_cases hs : startsL ("http".data) query.data = true
  · rw [if_pos hs]
    by_cases hc : 4 ≤ (urlParts query).length ∧
        (urlParts query).getD 2 [] = ("issues".data)
    · rw [if_pos hc]
      rcases hi : pyIntL ((urlParts query).getD 3 []) with _ | n
      · simp [isErrorPQ]
      · exact absurd ⟨hs, hc.1, hc.2, by rw [hi]; rfl⟩ h1
    · rw [if_neg hc]
      rcases hm : matchShorthand query.data with _ | ⟨o, r, ds⟩
      · simp [shorthandBranch, hm, isErrorPQ]
      · exact absurd (by simp [shorthandAccepts, hm]) h2
  · rw [if_neg hs]
    rcases hm : matchShorthand query.data with _ | ⟨o, r, ds⟩
    · simp [shorthandBranch, hm, isErrorPQ]
    · exact absurd (by simp [shorthandAccepts, hm]) h2

theorem c6_invalid_query_rejected_witness :
    isErrorPQ (parse_issue_query "not a query") = true :=
  c6_invalid_query_rejected "not a query" (by decide) (by decide)

/-- The parent-chain navigation block of `summarize` (main.py lines
105-118): default to the current owner/repo, then parse
`parent.repository_url` (when truthy) by splitting on `"/repos/"` and the
following piece on `/`. -/
def parentTarget (owner repo : String) (parent : SimpleIssue) : String × String × Int :=
  match parent.repository_url with
  | none => (owner, repo, parent.number)
  | some u =>
    if u = "" then (owner, repo, parent.number)
    else
      if 1 < (pySplitL ("/repos/".data) u.data).length then
        if 2 ≤ (splitCharL '/' ((pySplitL ("/repos/".data) u.data).getD 1 [])).length then
          (String.mk ((splitCharL '/' ((pySplitL ("/repos/".data) u.data).getD 1 [])).getD 0 []),
           String.mk ((splitCharL '/' ((pySplitL ("/repos/".data) u.data).getD 1 [])).getD 1 []),
           parent.number)
        else (owner, repo, parent.number)
      else (owner, repo, parent.number)

theorem startsL_append_self (sep t : List Char) : startsL sep (sep ++ t) = true := by
  induction sep with
  | nil => rfl
  | cons c cs ih => simp [startsL, ih]

theorem startsL_eq_append (sep : List Char) :
    ∀ l : List Char, startsL sep l = true → l = sep ++ l.drop sep.length := by
  induction sep with
  | nil => intro l _; simp
  | cons a as ih =>
    intro l h
    cases l with
    | nil => simp [startsL] at h
    | cons b bs =>
      simp only [startsL, Bool.and_eq_true, beq_iff_eq] at h
      obtain ⟨hab, hrest⟩ := h
      subst hab
      have h2 := ih bs hrest
      calc a :: bs = a :: (as ++ bs.drop as.length) := by rw [← h2]
        _ = (a :: as) ++ (a :: bs).drop ((a :: as).length) := by
            simp [List.length_cons, List.drop_succ_cons]

theorem splitFirstL_eq (sep : List Char) :
    ∀ (l : List Char) (r : List Char × List Char), splitFirstL sep l = some r →
    l = r.1 ++ sep ++ r.2 := by
  intro l
  induction l with
  | nil => intro r h; simp [splitFirstL] at h
  | cons c rest ih =>
    intro r h
    by_cases hs : startsL sep (c :: rest) = true
    · simp only [splitFirstL, hs, if_true] at h
      injection h with h'
      subst h'
      simpa using startsL_eq_append sep (c :: rest) hs
    · simp only [splitFirstL, hs, if_false] at h
      rcases hsp : splitFirstL sep rest with _ | ⟨a', b'⟩ <;> rw [hsp] at h
      · simp at h
      · simp only [Bool.false_eq_true, if_false, Option.some.injEq] at h
        subst h
        have := ih (a', b') hsp
        simp only [this]
        simp

theorem occursIn_cons (sep : List Char) (c : Char) (m : List Char) :
    occursIn sep (c :: m) = (startsL sep (c :: m) || occursIn sep m) := by
  unfold occursIn
  by_cases hs : startsL sep (c :: m) = true
  · simp [splitFirstL, hs]
  · rcases hsp : splitFirstL sep m with _ | ⟨a, b⟩ <;>
      simp [splitFirstL, hs, hsp]

theorem occursIn_of_startsL (sep l : List Char) (hsep : sep ≠ [])
    (h : startsL sep l = true) : occursIn sep l = true := by
  cases l with
  | nil =>
    cases sep with
    | nil => exact absurd rfl hsep
    | cons a as => simp [startsL] at h
  | cons c rest => simp [occursIn, splitFirstL, h]

theorem startsL_append_of_le (sep : List Char) :
    ∀ (x y : List Char), sep.length ≤ x.length →
    startsL sep (x ++ y) = startsL sep x := by
  induction sep with
  | nil => intro x y _; rfl
  | cons a as ih =>
    intro x y hlen
    cases x with
    | nil => simp at hlen
    | cons b bs =>
      simp only [List.cons_append, startsL, List.append_eq]
      rw [ih bs y (by simpa using hlen)]

theorem splitFirstL_boundary (sep t : List Char) (hsep : sep ≠ []) :
    ∀ p : List Char, occursIn sep (p ++ sep.dropLast) = false →
    splitFirstL sep (p ++ (sep ++ t)) = some (p, t) := by
  intro p
  induction p with
  | nil =>
    intro _
    cases sep with
    | nil => exact absurd rfl hsep
    | cons s ss =>
      have hs : startsL (s :: ss) ((s :: ss) ++ t) = true := startsL_append_self _ _
      simp only [List.nil_append]
      rw [show (s :: ss) ++ t = s :: (ss ++ t) from rfl]
      simp only [splitFirstL]
      rw [show startsL (s :: ss) (s :: (ss ++ t)) = true from hs]
      simp [List.drop_succ_cons, List.drop_left]
  | cons c p' ih =>
    intro hocc
    rw [show (c :: p') ++ sep.dropLast = c :: (p' ++ sep.dropLast) from rfl,
      occursIn_cons, Bool.or_eq_false_iff] at hocc
    obtain ⟨hocc1, hocc2⟩ := hocc
    have hns : startsL sep (c :: (p' ++ sep.dropLast) ++ ([sep.getLast hsep] ++ t)) =
        false := by
      have hlen : sep.length ≤ (c :: (p' ++ sep.dropLast)).length := by
        simp only [List.length_append, List.length_cons, List.length_dropLast]
        have h1 : 1 ≤ sep.length := by
          cases sep with
          | nil => exact absurd rfl hsep
          | cons _ _ => simp
        omega
      rw [startsL_append_of_le sep _ _ hlen]
      exact hocc1
    have hsplit2 : c :: (p' ++ (sep ++ t)) =
        c :: (p' ++ sep.dropLast) ++ ([sep.getLast hsep] ++ t) := by
      conv_lhs => rw [← List.dropLast_append_getLast hsep]
      simp [List.append_assoc]
    rw [show (c :: p') ++ (sep ++ t) = c :: (p' ++ (sep ++ t)) from rfl]
    simp only [splitFirstL]
    rw [show startsL sep (c :: (p' ++ (sep ++ t))) = false from hsplit2 ▸ hns]
    simp only [if_false, Bool.false_eq_true]
    simp only [ih hocc2]

theorem pySplitAux_done (sep l : List Char) (h : splitFirstL sep l = none) :
    ∀ n, pySplitAux sep n l = [l] := by
  intro n
  cases n with
  | zero => rfl
  | succ m => simp [pySplitAux, h]

theorem splitCharL_no (c : Char) :
    ∀ l : List Char, l.count c = 0 → splitCharL c l = [l] := by
  intro l
  induction l with
  | nil => intro _; rfl
  | cons x xs ih =>
    intro h
    rw [List.count_cons] at h
    have hx : (x == c) = false := by
      by_contra hb
      rw [Bool.not_eq_false] at hb
      simp [hb] at h
    have hxs : xs.count c = 0 := by
      rcases Nat.add_eq_zero.mp h with ⟨h1, _⟩
      exact h1
    simp only [splitCharL, hx, Bool.false_eq_true, if_false]
    rw [ih hxs]

theorem splitCharL_mid (c : Char) :
    ∀ a b : List Char, a.count c = 0 →
    splitCharL c (a ++ c :: b) = a :: splitCharL c b := by
  intro a
  induction a with
  | nil =>
    intro b _
    simp [splitCharL]
  | cons x a' ih =>
    intro b h
    rw [List.count_cons] at h
    have hx : (x == c) = false := by
      by_contra hb
      rw [Bool.not_eq_false] at hb
      simp [hb] at h
    have ha' : a'.count c = 0 := by
      rcases Nat.add_eq_zero.mp h with ⟨h1, _⟩
      exact h1
    rw [show (x :: a') ++ c :: b = x :: (a' ++ c :: b) from rfl]
    simp only [splitCharL, hx, Bool.false_eq_true, if_false]
    rw [ih b ha']

/-- Claim C8: for an assembled thread with a present parent, the
parent-chain navigation returns `(owner, repo, number)` parsed from the
parent's `repository_url` of the form `.../repos/{owner}/{repo}`, and
defaults to the current owner and repo when `repository_url` is absent. -/
theorem c8_parent_chain_navigator :
    (∀ (owner repo : String) (parent : SimpleIssue) (p ow rp : String),
      parent.repository_url = some (p ++ "/repos/" ++ ow ++ "/" ++ rp) →
      occursIn (("/repos/" : String).data) (p.data ++ ("/repos" : String).data) = false →
      ow.data.count '/' = 0 → rp.data.count '/' = 0 →
      parentTarget owner repo parent = (ow, rp, parent.number)) ∧
    (∀ (owner repo : String) (parent : SimpleIssue),
      parent.repository_url = none →
      parentTarget owner repo parent = (owner, repo, parent.number)) := by
  constructor
  · intro owner repo parent p ow rp hu hocc how hrp
    have hslash : ("/" : String).data = ['/'] := rfl
    have hsepne : (("/repos/" : String).data) ≠ [] := by decide
    have hdrop : (("/repos/" : String).data).dropLast = (("/repos" : String).data) := by
      decide
    have hud : (p ++ "/repos/" ++ ow ++ "/" ++ rp).data =
        p.data ++ ((("/repos/" : String).data) ++ (ow.data ++ '/' :: rp.data)) := by
      simp [data_append, hslash, List.append_assoc]
    have hsplit : splitFirstL (("/repos/" : String).data)
        ((p ++ "/repos/" ++ ow ++ "/" ++ rp).data) =
        some (p.data, ow.data ++ '/' :: rp.data) := by
      rw [hud]
      exact splitFirstL_boundary _ _ hsepne p.data (by rw [hdrop]; exact hocc)
    have htail : splitFirstL (("/repos/" : String).data) (ow.data ++ '/' :: rp.data) =
        none := by
      rcases hsp : splitFirstL (("/repos/" : String).data) (ow.data ++ '/' :: rp.data)
        with _ | ⟨a, b⟩
      · rfl
      · exfalso
        have hdec := splitFirstL_eq _ _ _ hsp
        have hcount := congrArg (List.count '/') hdec
        simp [List.count_append, List.count_cons, how, hrp] at hcount
        omega
    have hune : (p ++ "/repos/" ++ ow ++ "/" ++ rp) ≠ "" := by
      intro h
      have hd : (p ++ "/repos/" ++ ow ++ "/" ++ rp).data = [] := by rw [h]
      rw [hud] at hd
      rcases List.append_eq_nil.mp hd with ⟨_, h2⟩
      rcases List.append_eq_nil.mp h2 with ⟨h3, _⟩
      exact hsepne h3
    have hparts : pySplitL (("/repos/" : String).data)
        ((p ++ "/repos/" ++ ow ++ "/" ++ rp)).data =
        [p.data, ow.data ++ '/' :: rp.data] := by
      unfold pySplitL
      simp only [pySplitAux, hsplit]
      rw [pySplitAux_done _ _ htail]
    have hrepoPart : splitCharL '/' (ow.data ++ '/' :: rp.data) = [ow.data, rp.data] := by
      rw [splitCharL_mid '/' ow.data rp.data how, splitCharL_no '/' rp.data hrp]
    have hmk : ∀ s : String, String.mk s.data = s := fun s => rfl
    simp only [parentTarget, hu]
    rw [if_neg hune]
    simp only [hparts]
    norm_num [hrepoPart]
  · intro owner repo parent hn
    simp [parentTarget, hn]

/-- The claim's concrete parent: `repository_url`
`https://api.github.com/repos/acme/core`, number 7. -/
def parC8 : SimpleIssue :=
  ⟨7, "t", "hu", "open", none, none, some "https://api.github.com/repos/acme/core", none⟩

theorem c8_parent_chain_navigator_witness :
    parentTarget "x" "y" parC8 = ("acme", "core", 7) :=
  c8_parent_chain_navigator.1 "x" "y" parC8 "https://api.github.com" "acme" "core"
    (by decide) (by decide) (by decide) (by decide)

end Issuerizer
